import Mathlib

/-!
Verification of the resolution pipeline of the MCP calculator/weather client
(`client.py`).  The development shallowly embeds the three resolution layers:

* the keyword resolver `parse_natural_language`,
* the assisted resolver `ask_qwen_for_tool` (network effects modelled as an
  explicit reply value),
* the dispatcher turn of `run` (weather intercept, assisted step, keyword
  fallback, terminal not-understood outcome).

Text is modelled as `List Char`; Python dictionaries keyed by strings are
modelled as association lists in insertion order; Python exceptions are
modelled by an explicit error type threaded through `Except`.
-/

/-- Python ASCII whitespace characters, as recognised by `str.split()`,
`str.strip()` and the regex class backslash-s on the ASCII inputs involved. -/
def isWs (c : Char) : Bool :=
  c == ' ' || c == '\t' || c == '\n' || c == '\r' || c == '\x0b' || c == '\x0c'

/-- `str.lower()` on the ASCII texts the client handles. -/
def lowerL (cs : List Char) : List Char := cs.map Char.toLower

/-- `str.strip()`: drop whitespace from both ends. -/
def stripL (cs : List Char) : List Char :=
  ((cs.dropWhile isWs).reverse.dropWhile isWs).reverse

/-- Helper for `splitWs`: accumulate the current token (reversed). -/
def splitWsAux : List Char → List Char → List (List Char)
  | [], acc => if acc.isEmpty then [] else [acc.reverse]
  | c :: cs, acc =>
      if isWs c then
        if acc.isEmpty then splitWsAux cs [] else acc.reverse :: splitWsAux cs []
      else splitWsAux cs (c :: acc)

/-- `str.split()` with no separator: split on whitespace runs, no empty tokens. -/
def splitWs (cs : List Char) : List (List Char) := splitWsAux cs []

/-- Python substring containment `needle in hay` on strings. -/
def subIn (needle hay : List Char) : Bool :=
  match hay with
  | [] => needle.isEmpty
  | _ :: t => needle.isPrefixOf hay || subIn needle t

/-- The Python exceptions relevant to `parse_natural_language`:
`IndexError` (from `text.split()[0]` and list indexing), `ValueError`
(from `float`), `KeyError` (from dict indexing). -/
inductive PyErr
  | indexError
  | valueError
  | keyError
deriving DecidableEq, Repr

instance {ε α : Type} [DecidableEq ε] [DecidableEq α] : DecidableEq (Except ε α) := fun x y =>
  match x, y with
  | .ok a, .ok b =>
      if h : a = b then isTrue (by rw [h])
      else isFalse (fun he => h (Except.ok.inj he))
  | .error a, .error b =>
      if h : a = b then isTrue (by rw [h])
      else isFalse (fun he => h (Except.error.inj he))
  | .ok _, .error _ => isFalse (fun he => Except.noConfusion he)
  | .error _, .ok _ => isFalse (fun he => Except.noConfusion he)

/-- Argument values produced by the keyword resolver:
`int(...)`, `float(...)`, or the numeral substring passed through as text. -/
inductive Value
  | int (n : ℤ)
  | num (q : ℚ)
  | str (s : String)
deriving DecidableEq, Repr

/-- The `args` dictionary built by the keyword resolver, in insertion order. -/
abbrev Args := List (String × Value)

/-- The slice of an MCP tool's `inputSchema` that the client reads:
`inputSchema.get("properties", {})` (parameter name to its declared
`"type"` string, in declaration order) and `inputSchema.get("required", [])`. -/
structure ToolSchema where
  properties : List (String × String)
  required : List String
deriving DecidableEq, Repr

/-- `tool_map`: the catalog built from `list_tools()`, keyed by tool name,
in discovery order. -/
abbrev ToolMap := List (String × ToolSchema)

/-- Python `name in tool_map` (dict key membership). -/
def hasTool (tm : ToolMap) (name : String) : Bool :=
  tm.any (fun p => p.1 == name)

/-- Python `tool_map[name]` as an `Option` (first binding of the key). -/
def lookupTool (tm : ToolMap) (name : String) : Option ToolSchema :=
  (tm.find? (fun p => p.1 == name)).map Prod.snd

/-- The fixed `keywords` phrase-to-tool dictionary of
`parse_natural_language`, in source (insertion) order. -/
def keywords : List (String × String) :=
  [ ("add", "add"),
    ("plus", "add"),
    ("subtract", "subtract"),
    ("minus", "subtract"),
    ("multiply", "multiply"),
    ("times", "multiply"),
    ("divide", "divide"),
    ("over", "divide"),
    ("power", "power"),
    ("to the power of", "power"),
    ("sqrt", "sqrt"),
    ("square root", "sqrt"),
    ("cosine", "cosine"),
    ("cos", "cosine"),
    ("sine", "sine"),
    ("sin", "sine"),
    ("tangent", "tangent"),
    ("tan", "tangent"),
    ("acos", "acos"),
    ("asin", "asin"),
    ("recent", "get_recent_calculations"),
    ("history", "get_recent_calculations"),
    ("log", "get_recent_calculations") ]

/-- Whether a `keywords` entry matches: its phrase occurs in the (lowercased)
text and its tool is in the catalog — the loop condition
`key_phrase in text and tool_name in tool_map`. -/
def kwMatches (text : List Char) (tm : ToolMap) (kv : String × String) : Bool :=
  subIn kv.1.data text && hasTool tm kv.2

/-- The keyword-scanning loop: first `keywords` entry (in table order) whose
phrase occurs in the text and whose tool is in the catalog. -/
def findKeywordTool (text : List Char) (tm : ToolMap) : Option String :=
  (keywords.find? (kwMatches text tm)).map Prod.snd

/-- The fallback `first_word = text.split()[0]`: raises `IndexError` on
whitespace-only text; otherwise accepts the first token only if it is a
catalog tool name. -/
def firstWordTool (text : List Char) (tm : ToolMap) : Except PyErr (Option String) :=
  match splitWs text with
  | [] => .error .indexError
  | w :: _ =>
      .ok (if hasTool tm (String.mk w) then some (String.mk w) else none)

/-- The tool-identification phase of `parse_natural_language`: the keyword
scan, then the first-word fallback. -/
def foundToolOf (text : List Char) (tm : ToolMap) : Except PyErr (Option String) :=
  match findKeywordTool text tm with
  | some t => .ok (some t)
  | none => firstWordTool text tm

/-- Numeric value of a digit string (most significant first). -/
def digitsVal (ds : List Char) : ℕ :=
  ds.foldl (fun a c => a * 10 + (c.toNat - 48)) 0

/-- One attempt of the numeral regex body (digits, optional dot, digits) at
the current position, with Python's greedy-then-backtrack semantics for
the pattern digits-star, optional-dot, digits-plus.  Returns the matched
characters and the remaining suffix. -/
def numBody (cs : List Char) : Option (List Char × List Char) :=
  let ds := cs.takeWhile Char.isDigit
  let rest := cs.dropWhile Char.isDigit
  match rest with
  | '.' :: rest2 =>
      let fs := rest2.takeWhile Char.isDigit
      if fs.isEmpty then
        if ds.isEmpty then none else some (ds, rest)
      else some (ds ++ '.' :: fs, rest2.dropWhile Char.isDigit)
  | _ => if ds.isEmpty then none else some (ds, rest)

/-- Match of the numeral regex (optional sign, then `numBody`) anchored at
the current position. -/
def matchNumAt (cs : List Char) : Option (List Char × List Char) :=
  match cs with
  | [] => none
  | c :: cs' =>
      if c == '+' || c == '-' then
        (numBody cs').map (fun mr => (c :: mr.1, mr.2))
      else numBody cs

/-- Fuelled scan for `re.findall` (fuel bounds the number of scan steps;
each step either consumes a nonempty match or advances one character, so
the input length is sufficient fuel). -/
def findallNumAux : Nat → List Char → List (List Char)
  | 0, _ => []
  | _ + 1, [] => []
  | fuel + 1, c :: cs =>
      match matchNumAt (c :: cs) with
      | some (m, rest) => m :: findallNumAux fuel rest
      | none => findallNumAux fuel cs

/-- `re.findall` of the signed-decimal-numeral pattern over the text:
leftmost non-overlapping matches, in order of appearance. -/
def findallNum (cs : List Char) : List (List Char) :=
  findallNumAux cs.length cs

/-- The unsigned part of `float(...)` on the decimal forms the numeral regex
can produce: digits, optionally a dot and more digits (at least one digit
in total).  The decimal string is parsed exactly, as a rational. -/
def pyFloatCore (cs : List Char) : Option ℚ :=
  let ip := cs.takeWhile Char.isDigit
  let rest := cs.dropWhile Char.isDigit
  match rest with
  | [] => if ip.isEmpty then none else some (mkRat (digitsVal ip) 1)
  | '.' :: fr =>
      if fr.all Char.isDigit && !(ip.isEmpty && fr.isEmpty) then
        some (mkRat (digitsVal ip * 10 ^ fr.length + digitsVal fr) (10 ^ fr.length))
      else none
  | _ => none

/-- `float(...)` on an optionally signed decimal string; `none` models a
`ValueError`. -/
def pyFloat (cs : List Char) : Option ℚ :=
  match cs with
  | '+' :: cs' => pyFloatCore cs'
  | '-' :: cs' => (pyFloatCore cs').map Neg.neg
  | _ => pyFloatCore cs

/-- Python `int(...)` applied to a float value: truncation toward zero. -/
def truncQ (q : ℚ) : ℤ :=
  if q.num < 0 then -((q.num.natAbs / q.den : ℕ) : ℤ)
  else ((q.num.natAbs / q.den : ℕ) : ℤ)

/-- One step of the argument-coercion loop: convert the matched numeral per
the parameter's declared type (`integer`: parse then truncate toward zero;
`number`: parse, kept as-is; anything else: the substring unchanged). -/
def coerceVal (ty : String) (v : List Char) : Except PyErr Value :=
  if ty = "integer" then
    match pyFloat v with
    | some q => .ok (.int (truncQ q))
    | none => .error .valueError
  else if ty = "number" then
    match pyFloat v with
    | some q => .ok (.num q)
    | none => .error .valueError
  else .ok (.str (String.mk v))

/-- The `for i, key in enumerate(required)` loop building `args`:
look up `props[key]["type"]` (a missing key raises `KeyError`), take the
i-th extracted numeral (exhaustion would raise `IndexError`), coerce it. -/
def buildArgs (props : List (String × String)) :
    List String → List (List Char) → Except PyErr Args
  | [], _ => .ok []
  | key :: ks, ns =>
      match props.find? (fun p => p.1 == key) with
      | none => .error .keyError
      | some pr =>
          match ns with
          | [] => .error .indexError
          | v :: vs =>
              match coerceVal pr.2 v with
              | .error e => .error e
              | .ok val =>
                  match buildArgs props ks vs with
                  | .error e => .error e
                  | .ok rest => .ok ((key, val) :: rest)

/-- The schema-driven tail of `parse_natural_language` once a tool has been
identified and looked up: empty `required` returns immediately, too few
numerals return `(None, None)`, and the coercion loop runs inside
`try ... except (IndexError, ValueError)`, so only `KeyError` escapes. -/
def parseWithSchema (text : List Char) (t : String) (tool : ToolSchema) :
    Except PyErr (Option (String × Args)) :=
  if tool.required.isEmpty then .ok (some (t, []))
  else if (findallNum text).length < tool.required.length then .ok none
  else
    match buildArgs tool.properties tool.required (findallNum text) with
    | .ok args => .ok (some (t, args))
    | .error .keyError => .error .keyError
    | .error _ => .ok none

/-- `tool_map[found_tool]` followed by the schema-driven tail.  The lookup
cannot fail for a tool produced by `foundToolOf`, but dict indexing is
modelled faithfully as a potential `KeyError`. -/
def parseWithTool (tm : ToolMap) (text : List Char) (t : String) :
    Except PyErr (Option (String × Args)) :=
  match lookupTool tm t with
  | none => .error .keyError
  | some tool => parseWithSchema text t tool

/-- `parse_natural_language(user_input, tool_map)`: the keyword resolver.
`.ok none` is the `(None, None)` outcome; `.error e` is an uncaught
Python exception. -/
def parse_natural_language (user_input : String) (tm : ToolMap) :
    Except PyErr (Option (String × Args)) :=
  match foundToolOf (lowerL user_input.data) tm with
  | .error e => .error e
  | .ok none => .ok none
  | .ok (some t) => parseWithTool tm (lowerL user_input.data) t

/-- A JSON value, as produced by `json.loads` on the collaborator's reply
content.  Object fields are kept in order; `jnull` is Python `None`. -/
inductive JVal
  | jnull
  | jbool (b : Bool)
  | jnum (q : ℚ)
  | jstr (s : String)
  | jarr (xs : List JVal)
  | jobj (fields : List (String × JVal))

/-- Whether a JSON value is Python `None` (the `args is None` test). -/
def JVal.isNull : JVal → Bool
  | .jnull => true
  | _ => false

/-- The externally determined outcome of the one network round trip inside
`ask_qwen_for_tool`: either some exception was raised inside the `try`
(connection failure, timeout, missing `httpx`, a non-dict payload's
attribute error — all caught by `except Exception`), or a reply envelope
was read, giving the extracted `message.content` string together with the
result of `json.loads` on it (`none` models `json.JSONDecodeError`).
The decode result is carried explicitly because `json.loads` is standard
library code outside this repository. -/
inductive QwenResult
  | exn
  | response (content : String) (decoded : Option JVal)

/-- `parsed.get(key)` on a JSON object's field list. -/
def jget (fields : List (String × JVal)) (key : String) : Option JVal :=
  (fields.find? (fun p => p.1 == key)).map Prod.snd

/-- The `parsed.get("tool")` validation of `ask_qwen_for_tool` on a decoded
JSON object: return `(tool, args)` only when the `tool` field is a string
naming a catalog tool, with `args` defaulting to an empty object. -/
def askFields (tm : ToolMap) (fields : List (String × JVal)) : Option (String × JVal) :=
  match fields.find? (fun p => p.1 == "tool") with
  | some (_, .jstr t) =>
      if hasTool tm t then some (t, (jget fields "args").getD (.jobj [])) else none
  | _ => none

/-- Dispatch on the `json.loads` outcome inside `ask_qwen_for_tool`:
a decode failure returns the unresolved pair, a non-object payload makes
`parsed.get` raise an attribute error that the enclosing handler turns
into the unresolved pair, and an object is validated by `askFields`. -/
def askDecoded (tm : ToolMap) : Option JVal → Option (String × JVal)
  | some (.jobj fields) => askFields tm fields
  | _ => none

/-- `ask_qwen_for_tool(prompt, tool_map)`: the assisted resolver.  The
model returns the `(tool, args)` pair the Python function returns, with
`none` standing for `(None, None)`.  An exception inside the request
block, empty stripped content, a decode failure, a non-object payload, a
missing or non-string `tool` field, and a tool name not in the catalog
all yield `none`; on success the `args` payload is passed through
unvalidated. -/
def ask_qwen_for_tool (tm : ToolMap) (r : QwenResult) : Option (String × JVal) :=
  match r with
  | .exn => none
  | .response content decoded =>
      if stripL content.data = [] then none
      else askDecoded tm decoded

/-- The trigger words of the weather intercept in `run`. -/
def weatherTriggers : List String :=
  ["weather", "forecast", "temperature", "rain", "snow", "sunny"]

/-- The guard of the weather intercept:
`any(k in user_input.lower() for k in [...]) and "weather" in tool_map`. -/
def weatherCond (input : String) (tm : ToolMap) : Bool :=
  (weatherTriggers.any (fun k => subIn k.data (lowerL input.data))) &&
    hasTool tm "weather"

/-- Character class of the location capture group: letters or whitespace. -/
def locClass (c : Char) : Bool := c.isAlpha || isWs c

/-- The capture group (one or more letters/whitespace, greedy); fails when
no such character is at the current position. -/
def tryGroupD (cs : List Char) : Option (List Char) :=
  let g := cs.takeWhile locClass
  if g.isEmpty then none else some g

/-- Whitespace-star followed by the capture group, with the quantifier
backtracking from its greedy maximum down to zero. -/
def goCD : Nat → List Char → Option (List Char)
  | 0, cs => tryGroupD cs
  | k + 1, cs =>
      match tryGroupD (cs.drop (k + 1)) with
      | some g => some g
      | none => goCD k cs

/-- Entry point for the whitespace-star-then-group tail. -/
def tryCD (cs : List Char) : Option (List Char) :=
  goCD (cs.takeWhile isWs).length cs

/-- One alternative of the optional preposition group: the literal word,
then the rest of the tail. -/
def tryWordCD (w : String) (cs : List Char) : Option (List Char) :=
  if w.data.isPrefixOf cs then tryCD (cs.drop w.length) else none

/-- The optional non-capturing group (in-or-at-or-for), alternatives tried
in pattern order and then skipped, followed by the tail. -/
def tryBCD (cs : List Char) : Option (List Char) :=
  match tryWordCD "in" cs with
  | some g => some g
  | none =>
      match tryWordCD "at" cs with
      | some g => some g
      | none =>
          match tryWordCD "for" cs with
          | some g => some g
          | none => tryCD cs

/-- Whitespace-star before the optional preposition, backtracking from its
greedy maximum down to zero, followed by the rest of the tail. -/
def goA : Nat → List Char → Option (List Char)
  | 0, cs => tryBCD cs
  | k + 1, cs =>
      match tryBCD (cs.drop (k + 1)) with
      | some g => some g
      | none => goA k cs

/-- The part of the weather pattern after the literal word. -/
def tryTail (cs : List Char) : Option (List Char) :=
  goA (cs.takeWhile isWs).length cs

/-- `re.search` of the weather-location pattern over the lowercased input:
the leftmost position where the literal word matches and the tail
succeeds, returning the capture group. -/
def weatherSearch : List Char → Option (List Char)
  | [] => none
  | c :: cs =>
      if ("weather").data.isPrefixOf (c :: cs) then
        match tryTail ((c :: cs).drop 7) with
        | some g => some g
        | none => weatherSearch cs
      else weatherSearch cs

/-- The location argument of the weather intercept: the stripped capture
group when the pattern matched, otherwise the fixed default. -/
def extractLocation (lower : List Char) : String :=
  match weatherSearch lower with
  | some g => String.mk (stripL g)
  | none => "Nashville"

/-- What a resolution turn dispatches to `session.call_tool`: the keyword
resolver and the weather intercept pass a dictionary of coerced values;
the assisted resolver passes the JSON `args` payload through. -/
inductive CallArgs
  | fromVals (a : Args)
  | fromJson (j : JVal)

/-- The observable outcome of one resolution turn: a tool invocation, or
the terminal could-not-understand message. -/
inductive TurnOutcome
  | call (tool : String) (args : CallArgs)
  | notUnderstood

/-- One resolution turn, plus which resolvers the code path consulted. -/
structure Turn where
  outcome : Except PyErr TurnOutcome
  usedAssisted : Bool
  usedKeyword : Bool

/-- The dispatcher's falsy test `not tool_name or args is None` applied to
the assisted resolver's return value: the pair is absent, the tool name is
the empty string, or the `args` payload is JSON null. -/
def assistedRejected : Option (String × JVal) → Bool
  | none => true
  | some (t, a) => t == "" || a.isNull

/-- The keyword-fallback tail of the dispatcher: run the keyword resolver
and apply the falsy test to its result. -/
def kwOutcome (input : String) (tm : ToolMap) : Except PyErr TurnOutcome :=
  match parse_natural_language input tm with
  | .error e => .error e
  | .ok none => .ok .notUnderstood
  | .ok (some (t, args)) =>
      if t == "" then .ok .notUnderstood else .ok (.call t (.fromVals args))

/-- One iteration of the dispatcher in `run`, for an input that reached the
resolution region (past the quit and tool-listing branches): the weather
intercept short-circuits; otherwise the assisted resolver runs, and the
keyword resolver runs exactly when the falsy test rejects its result. -/
def runTurn (tm : ToolMap) (input : String) (r : QwenResult) : Turn :=
  if weatherCond input tm then
    { outcome := .ok (.call "weather"
        (.fromVals [("location", Value.str (extractLocation (lowerL input.data)))])),
      usedAssisted := false, usedKeyword := false }
  else
    match ask_qwen_for_tool tm r with
    | none => { outcome := kwOutcome input tm, usedAssisted := true, usedKeyword := true }
    | some (t, a) =>
        if t == "" || a.isNull then
          { outcome := kwOutcome input tm, usedAssisted := true, usedKeyword := true }
        else
          { outcome := .ok (.call t (.fromJson a)), usedAssisted := true, usedKeyword := false }
/-- Catalog of the calculator tools the scenarios use, with the schemas the
server declares (`add(a, b)`, `sqrt(a)` with required integer parameters,
`get_recent_calculations(n)` with no required parameter). -/
def tmCalc : ToolMap :=
  [ ("add", ⟨[("a", "integer"), ("b", "integer")], ["a", "b"]⟩),
    ("sqrt", ⟨[("a", "integer")], ["a"]⟩),
    ("get_recent_calculations", ⟨[("n", "integer")], []⟩) ]

def tmW : ToolMap := [("weather", ⟨[("location", "string")], ["location"]⟩)] ++ tmCalc

/-- Catalog with three no-argument tools named by distinct phrase-table
entries, for exercising table-order priority. -/
def tmTrio : ToolMap :=
  [("add", ⟨[], []⟩), ("subtract", ⟨[], []⟩), ("divide", ⟨[], []⟩)]

/-- Catalog with a tool whose required parameter is missing from its
properties mapping. -/
def tmBad : ToolMap := [("badd", ⟨[], ["a"]⟩)]



/-! ## Helper lemmas -/

theorem findKeywordTool_hasTool {text : List Char} {tm : ToolMap} {t : String}
    (h : findKeywordTool text tm = some t) : hasTool tm t = true := by
  unfold findKeywordTool at h
  cases hf : keywords.find? (kwMatches text tm) with
  | none => rw [hf] at h; simp at h
  | some kv =>
      rw [hf] at h
      simp only [Option.map] at h
      injection h with h
      have hp := List.find?_some hf
      unfold kwMatches at hp
      obtain ⟨h1, h2⟩ := Bool.and_eq_true _ _ |>.mp hp
      rw [← h]; exact h2

theorem foundToolOf_hasTool {text : List Char} {tm : ToolMap} {t : String}
    (h : foundToolOf text tm = .ok (some t)) : hasTool tm t = true := by
  unfold foundToolOf at h
  split at h
  next t' heq =>
    injection h with h
    injection h with h
    rw [← h]; exact findKeywordTool_hasTool heq
  next heq =>
    unfold firstWordTool at h
    split at h
    next => exact absurd h (by simp)
    next w ws heq2 =>
      injection h with h
      split at h
      next hw =>
        injection h with h
        rw [← h]; exact hw
      next => simp at h

theorem hasTool_lookup {tm : ToolMap} {t : String}
    (h : hasTool tm t = true) : ∃ tool, lookupTool tm t = some tool := by
  unfold hasTool at h
  obtain ⟨p, hmem, hp⟩ := List.any_eq_true.mp h
  have : (tm.find? (fun p => p.1 == t)).isSome := by
    exact List.find?_isSome.mpr ⟨p, hmem, hp⟩
  cases hf : tm.find? (fun p => p.1 == t) with
  | none => rw [hf] at this; simp at this
  | some q => exact ⟨q.2, by unfold lookupTool; rw [hf]; rfl⟩

theorem lookupTool_mem {tm : ToolMap} {t : String} {tool : ToolSchema}
    (h : lookupTool tm t = some tool) : (t, tool) ∈ tm := by
  unfold lookupTool at h
  cases hf : tm.find? (fun p => p.1 == t) with
  | none => rw [hf] at h; simp at h
  | some q =>
      rw [hf] at h
      simp only [Option.map] at h
      injection h with h
      have hq := List.find?_some hf
      have hmem := List.mem_of_find?_eq_some hf
      have : q.1 = t := by simpa using hq
      have : q = (t, tool) := by
        cases q; simp_all
      rw [← this]; exact hmem

theorem coerceVal_error {ty : String} {v : List Char} {e : PyErr}
    (h : coerceVal ty v = .error e) : e = .valueError := by
  unfold coerceVal at h
  by_cases h1 : ty = "integer"
  · rw [if_pos h1] at h
    cases hf : pyFloat v with
    | none => rw [hf] at h; injection h with h; exact h.symm
    | some q => rw [hf] at h; exact absurd h (by simp)
  · rw [if_neg h1] at h
    by_cases h2 : ty = "number"
    · rw [if_pos h2] at h
      cases hf : pyFloat v with
      | none => rw [hf] at h; injection h with h; exact h.symm
      | some q => rw [hf] at h; exact absurd h (by simp)
    · rw [if_neg h2] at h
      exact absurd h (by simp)

theorem buildArgs_keys {props : List (String × String)} :
    ∀ {req : List String} {ns : List (List Char)} {args : Args},
      buildArgs props req ns = .ok args → args.map Prod.fst = req
  | [], ns, args, h => by
      unfold buildArgs at h
      injection h with h
      rw [← h]; rfl
  | key :: ks, ns, args, h => by
      unfold buildArgs at h
      split at h
      next => exact absurd h (by simp)
      next pr hf =>
        split at h
        next => exact absurd h (by simp)
        next v vs =>
          split at h
          next => exact absurd h (by simp)
          next val hc =>
            split at h
            next => exact absurd h (by simp)
            next rest hb =>
              injection h with h
              rw [← h]
              have ih := buildArgs_keys hb
              simp [ih]

theorem buildArgs_no_keyError {props : List (String × String)} :
    ∀ {req : List String} {ns : List (List Char)},
      (∀ k ∈ req, (props.find? (fun p => p.1 == k)).isSome = true) →
      buildArgs props req ns ≠ .error .keyError
  | [], ns, _ => by unfold buildArgs; simp
  | key :: ks, ns, hwf => by
      unfold buildArgs
      split
      next hf =>
        have := hwf key (List.mem_cons_self _ _)
        rw [hf] at this; simp at this
      next pr hf =>
        split
        next => simp
        next v vs =>
          split
          next e hc =>
            have := coerceVal_error hc
            simp [this]
          next val hc =>
            split
            next e hb =>
              intro hcontra
              injection hcontra with hcontra
              have hih := @buildArgs_no_keyError props ks vs
                (fun k hk => hwf k (List.mem_cons_of_mem _ hk))
              rw [hb] at hih
              exact hih (by rw [hcontra])
            next rest hb => simp

theorem buildArgs_args_length {props : List (String × String)} {req : List String}
    {ns : List (List Char)} {args : Args}
    (h : buildArgs props req ns = .ok args) : args.length = req.length := by
  have hk := buildArgs_keys h
  rw [← hk]
  simp

theorem buildArgs_ns_length {props : List (String × String)} :
    ∀ {req : List String} {ns : List (List Char)} {args : Args},
      buildArgs props req ns = .ok args → req.length ≤ ns.length
  | [], ns, args, _ => by simp
  | key :: ks, ns, args, h => by
      unfold buildArgs at h
      split at h
      next => exact absurd h (by simp)
      next pr hf =>
        split at h
        next => exact absurd h (by simp)
        next v vs =>
          split at h
          next => exact absurd h (by simp)
          next val hc =>
            split at h
            next => exact absurd h (by simp)
            next rest hb =>
              have ih := buildArgs_ns_length hb
              simpa using Nat.succ_le_succ ih

theorem buildArgs_get {props : List (String × String)} :
    ∀ {req : List String} {ns : List (List Char)} {args : Args},
      buildArgs props req ns = .ok args →
      ∀ i, ∀ hi : i < req.length, ∀ hn : i < ns.length, ∀ ha : i < args.length,
        ∃ pr, props.find? (fun p => p.1 == req.get ⟨i, hi⟩) = some pr ∧
          coerceVal pr.2 (ns.get ⟨i, hn⟩) = .ok ((args.get ⟨i, ha⟩).2) ∧
          (args.get ⟨i, ha⟩).1 = req.get ⟨i, hi⟩
  | [], _, _, _, i, hi, _, _ => absurd hi (by simp)
  | key :: ks, ns, args, h, i, hi, hn, ha => by
      unfold buildArgs at h
      split at h
      next => exact absurd h (by simp)
      next pr hf =>
        split at h
        next => exact absurd h (by simp)
        next v vs =>
          split at h
          next => exact absurd h (by simp)
          next val hc =>
            split at h
            next => exact absurd h (by simp)
            next rest hb =>
              injection h with h
              subst h
              cases i with
              | zero => exact ⟨pr, hf, hc, rfl⟩
              | succ j =>
                  exact buildArgs_get hb j (Nat.lt_of_succ_lt_succ hi)
                    (Nat.lt_of_succ_lt_succ hn) (Nat.lt_of_succ_lt_succ ha)

theorem parseWithSchema_inv {text : List Char} {t t2 : String} {tool : ToolSchema} {args : Args}
    (h : parseWithSchema text t tool = .ok (some (t2, args))) :
    t2 = t ∧ ((tool.required = [] ∧ args = []) ∨
      buildArgs tool.properties tool.required (findallNum text) = .ok args) := by
  unfold parseWithSchema at h
  split at h
  next hreq =>
    injection h with h
    injection h with h
    injection h with h1 h2
    subst h1
    subst h2
    have hnil : tool.required = [] := by
      cases hr : tool.required with
      | nil => rfl
      | cons a as => rw [hr] at hreq; simp [List.isEmpty] at hreq
    exact ⟨rfl, Or.inl ⟨hnil, rfl⟩⟩
  next hreq =>
    split at h
    next => exact absurd h (by simp)
    next =>
      split at h
      next args2 hb =>
        injection h with h
        injection h with h
        injection h with h1 h2
        subst h1
        subst h2
        exact ⟨rfl, Or.inr hb⟩
      next => exact absurd h (by simp)
      next e he hne => exact absurd h (by simp)

theorem parseWithSchema_total {text : List Char} {t : String} {tool : ToolSchema}
    (hwtool : ∀ k ∈ tool.required,
      (tool.properties.find? (fun q => q.1 == k)).isSome = true) :
    ∃ o, parseWithSchema text t tool = .ok o := by
  unfold parseWithSchema
  split
  next => exact ⟨_, rfl⟩
  next =>
    split
    next => exact ⟨none, rfl⟩
    next =>
      cases hb : buildArgs tool.properties tool.required (findallNum text) with
      | ok args => exact ⟨some (t, args), rfl⟩
      | error e =>
          cases e with
          | keyError => exact absurd hb (buildArgs_no_keyError hwtool)
          | valueError => exact ⟨none, rfl⟩
          | indexError => exact ⟨none, rfl⟩

theorem parse_some_inv {input : String} {tm : ToolMap} {t : String} {args : Args}
    (h : parse_natural_language input tm = .ok (some (t, args))) :
    foundToolOf (lowerL input.data) tm = .ok (some t) ∧
      ∃ tool, lookupTool tm t = some tool ∧
        ((tool.required = [] ∧ args = []) ∨
          buildArgs tool.properties tool.required (findallNum (lowerL input.data)) = .ok args) := by
  unfold parse_natural_language at h
  split at h
  next => exact absurd h (by simp)
  next => exact absurd h (by simp)
  next t' heq =>
    unfold parseWithTool at h
    split at h
    next => exact absurd h (by simp)
    next tool hl =>
      obtain ⟨hteq, hrest⟩ := parseWithSchema_inv h
      subst hteq
      exact ⟨heq, tool, hl, hrest⟩

theorem parse_required_keys {input : String} {tm : ToolMap} {t : String} {args : Args}
    (h : parse_natural_language input tm = .ok (some (t, args))) :
    ∃ tool, lookupTool tm t = some tool ∧ args.map Prod.fst = tool.required := by
  obtain ⟨_, tool, hl, hcase⟩ := parse_some_inv h
  refine ⟨tool, hl, ?_⟩
  cases hcase with
  | inl he => rw [he.1, he.2]; rfl
  | inr hb => exact buildArgs_keys hb

theorem parse_total {input : String} {tm : ToolMap}
    (hne : splitWs (lowerL input.data) ≠ [])
    (hwf : ∀ p ∈ tm, ∀ k ∈ p.2.required,
      (p.2.properties.find? (fun q => q.1 == k)).isSome = true) :
    ∃ o, parse_natural_language input tm = .ok o := by
  unfold parse_natural_language
  cases hft : foundToolOf (lowerL input.data) tm with
  | error e =>
      exfalso
      unfold foundToolOf at hft
      split at hft
      next => simp at hft
      next =>
        unfold firstWordTool at hft
        split at hft
        next hs => exact hne hs
        next w ws hs => simp at hft
  | ok o =>
      cases o with
      | none => exact ⟨none, rfl⟩
      | some t =>
          obtain ⟨tool, hl⟩ := hasTool_lookup (foundToolOf_hasTool hft)
          have hmem := lookupTool_mem hl
          obtain ⟨o2, ho2⟩ := @parseWithSchema_total (lowerL input.data) t tool
            (hwf (t, tool) hmem)
          refine ⟨o2, ?_⟩
          show parseWithTool tm (lowerL input.data) t = .ok o2
          unfold parseWithTool
          rw [hl]
          exact ho2

theorem askFields_some_hasTool {tm : ToolMap} {fields : List (String × JVal)}
    {t : String} {a : JVal}
    (h : askFields tm fields = some (t, a)) : hasTool tm t = true := by
  unfold askFields at h
  split at h
  next x t' heq =>
    split at h
    next hh =>
      injection h with h
      obtain ⟨h1, _⟩ := Prod.mk.inj h
      rw [← h1]; exact hh
    next => simp at h
  next => simp at h

theorem ask_qwen_some_hasTool {tm : ToolMap} {r : QwenResult} {t : String} {a : JVal}
    (h : ask_qwen_for_tool tm r = some (t, a)) : hasTool tm t = true := by
  unfold ask_qwen_for_tool at h
  split at h
  next => simp at h
  next content decoded =>
    split at h
    next => simp at h
    next =>
      unfold askDecoded at h
      split at h
      next fields => exact askFields_some_hasTool h
      next => simp at h

theorem list_find?_first {α : Type} (p : α → Bool) :
    ∀ (l : List α) (i : Nat) (hi : i < l.length), p (l.get ⟨i, hi⟩) = true →
      ∃ k, ∃ hk : k < l.length, k ≤ i ∧ p (l.get ⟨k, hk⟩) = true ∧
        l.find? p = some (l.get ⟨k, hk⟩)
  | a :: as, i, hi, hp => by
      cases ha : p a with
      | true =>
          exact ⟨0, Nat.succ_pos _, Nat.zero_le _, ha, by
            simp [List.find?_cons_of_pos _ ha]⟩
      | false =>
          cases i with
          | zero => rw [show (a :: as).get ⟨0, hi⟩ = a from rfl] at hp; rw [hp] at ha; cases ha
          | succ j =>
              have hj : j < as.length := Nat.lt_of_succ_lt_succ hi
              obtain ⟨k, hk, hki, hpk, hfind⟩ := list_find?_first p as j hj hp
              exact ⟨k + 1, Nat.succ_lt_succ hk, Nat.succ_le_succ hki, hpk, by
                rw [List.find?_cons_of_neg _ (by rw [ha]; exact Bool.false_ne_true)]
                exact hfind⟩

theorem parse_some_hasTool {input : String} {tm : ToolMap} {t : String} {args : Args}
    (h : parse_natural_language input tm = .ok (some (t, args))) : hasTool tm t = true :=
  foundToolOf_hasTool (parse_some_inv h).1

theorem kwOutcome_call_hasTool {input : String} {tm : ToolMap} {t : String} {a : CallArgs}
    (h : kwOutcome input tm = .ok (.call t a)) : hasTool tm t = true := by
  unfold kwOutcome at h
  split at h
  next => simp at h
  next => simp at h
  next t' args hp =>
    split at h
    next => simp at h
    next =>
      injection h with h
      injection h with h1 h2
      rw [← h1]
      exact parse_some_hasTool hp

theorem runTurn_weather {tm : ToolMap} {input : String} {r : QwenResult}
    (hc : weatherCond input tm = true) :
    runTurn tm input r =
      ⟨.ok (.call "weather"
        (.fromVals [("location", Value.str (extractLocation (lowerL input.data)))])),
        false, false⟩ := by
  unfold runTurn
  rw [hc]
  rfl

theorem runTurn_noWeather_none {tm : ToolMap} {input : String} {r : QwenResult}
    (hc : weatherCond input tm = false) (ha : ask_qwen_for_tool tm r = none) :
    runTurn tm input r = ⟨kwOutcome input tm, true, true⟩ := by
  unfold runTurn
  rw [hc, ha]
  rfl

theorem runTurn_noWeather_some {tm : ToolMap} {input : String} {r : QwenResult}
    {t : String} {a : JVal}
    (hc : weatherCond input tm = false) (ha : ask_qwen_for_tool tm r = some (t, a)) :
    runTurn tm input r =
      if t == "" || a.isNull then ⟨kwOutcome input tm, true, true⟩
      else ⟨.ok (.call t (.fromJson a)), true, false⟩ := by
  unfold runTurn
  rw [hc, ha]
  rfl

/-! ## Claims -/

/-- C1, counterexample: a Resolved outcome of the assisted path whose args
mapping misses a required parameter.  The collaborator names the catalog
tool `add` (required parameters `a` and `b`) with an empty args object;
the dispatcher dispatches it unvalidated, so the resolved args contain
neither required key. -/
theorem claim1_cex :
    (runTurn tmCalc "hello"
      (.response "x" (some (.jobj [("tool", .jstr "add"), ("args", .jobj [])])))).outcome
        = .ok (.call "add" (.fromJson (.jobj []))) ∧
    lookupTool tmCalc "add" = some ⟨[("a", "integer"), ("b", "integer")], ["a", "b"]⟩ ∧
    jget [] "a" = none ∧ jget [] "b" = none :=
  ⟨rfl, rfl, rfl, rfl⟩

/-- C1 as amended: on every resolution path a Resolved outcome's tool name
exists in the catalog; the keyword resolver additionally guarantees that
its args mapping contains every parameter of the tool's required set, but
the intercept and assisted paths give no such args guarantee. -/
theorem claim1_thm :
    (∀ tm input r t a, (runTurn tm input r).outcome = .ok (.call t a) →
      hasTool tm t = true) ∧
    (∀ input tm t args, parse_natural_language input tm = .ok (some (t, args)) →
      hasTool tm t = true ∧ ∃ tool, lookupTool tm t = some tool ∧
        ∀ k ∈ tool.required, (args.find? (fun p => p.1 == k)).isSome = true) := by
  constructor
  · intro tm input r t a h
    cases hc : weatherCond input tm with
    | true =>
        rw [runTurn_weather hc] at h
        injection h with h
        injection h with h1 h2
        rw [← h1]
        exact ((Bool.and_eq_true _ _).mp hc).2
    | false =>
        cases ha : ask_qwen_for_tool tm r with
        | none =>
            rw [runTurn_noWeather_none hc ha] at h
            exact kwOutcome_call_hasTool h
        | some pair =>
            obtain ⟨t', a'⟩ := pair
            rw [runTurn_noWeather_some hc ha] at h
            by_cases hrej : (t' == "" || a'.isNull) = true
            · rw [if_pos hrej] at h
              exact kwOutcome_call_hasTool h
            · rw [if_neg hrej] at h
              injection h with h
              injection h with h1 h2
              rw [← h1]
              exact ask_qwen_some_hasTool ha
  · intro input tm t args h
    refine ⟨parse_some_hasTool h, ?_⟩
    obtain ⟨tool, hl, hkeys⟩ := parse_required_keys h
    refine ⟨tool, hl, ?_⟩
    intro k hk
    rw [← hkeys] at hk
    obtain ⟨p, hp, hpk⟩ := List.mem_map.mp hk
    exact List.find?_isSome.mpr ⟨p, hp, by rw [hpk]; simp⟩

/-- C1 witness: the amended theorem applied to a weather-intercept call and
to a keyword-resolver resolution at concrete inputs. -/
theorem claim1_wit :
    hasTool tmW "weather" = true ∧
    (hasTool tmCalc "add" = true ∧ ∃ tool, lookupTool tmCalc "add" = some tool ∧
      ∀ k ∈ tool.required,
        (([("a", Value.int 5), ("b", Value.int 3)] : Args).find?
          (fun p => p.1 == k)).isSome = true) :=
  ⟨claim1_thm.1 tmW "snow" .exn "weather"
      (.fromVals [("location", Value.str "Nashville")]) (by rfl),
   claim1_thm.2 "add 5 and 3" tmCalc "add" [("a", Value.int 5), ("b", Value.int 3)]
      (by decide)⟩

/-- C2, counterexample: the input contains the trigger word `rain` but the
catalog has no tool named `weather`, and the intercept does not fire — the
assisted resolver is consulted and the turn ends not-understood, instead
of the claimed short-circuit to the weather tool. -/
theorem claim2_cex :
    (weatherTriggers.any (fun k => subIn k.data (lowerL "rain in paris".data))) = true ∧
    hasTool tmCalc "weather" = false ∧
    (runTurn tmCalc "rain in paris" .exn).usedAssisted = true ∧
    (runTurn tmCalc "rain in paris" .exn).outcome = .ok .notUnderstood :=
  ⟨by decide, by decide, rfl, rfl⟩

/-- C2 as amended: the weather intercept fires exactly when the lowercased
text contains a trigger word AND the name `weather` is in the catalog;
when it fires it short-circuits the pipeline (neither resolver consulted)
with the extracted location, and the location defaults to `Nashville`
when the pattern finds none; when the guard fails the assisted resolver
is consulted. -/
theorem claim2_thm (tm : ToolMap) (input : String) (r : QwenResult) :
    (weatherCond input tm = true →
      runTurn tm input r =
        ⟨.ok (.call "weather"
          (.fromVals [("location", Value.str (extractLocation (lowerL input.data)))])),
          false, false⟩) ∧
    (weatherCond input tm = false → (runTurn tm input r).usedAssisted = true) ∧
    (weatherSearch (lowerL input.data) = none →
      extractLocation (lowerL input.data) = "Nashville") := by
  refine ⟨fun hc => runTurn_weather hc, fun hc => ?_, fun hs => ?_⟩
  · cases ha : ask_qwen_for_tool tm r with
    | none => rw [runTurn_noWeather_none hc ha]
    | some pair =>
        obtain ⟨t', a'⟩ := pair
        rw [runTurn_noWeather_some hc ha]
        by_cases hrej : (t' == "" || a'.isNull) = true
        · rw [if_pos hrej]
        · rw [if_neg hrej]
  · unfold extractLocation
    rw [hs]

/-- C2 witness: a trigger word with no extractable location short-circuits
to the default location, and a trigger word without the catalog tool does
not prevent the assisted resolver from being consulted. -/
theorem claim2_wit :
    runTurn tmW "snow" .exn =
      ⟨.ok (.call "weather"
        (.fromVals [("location", Value.str (extractLocation (lowerL "snow".data)))])),
        false, false⟩ ∧
    (runTurn tmCalc "rain in paris" .exn).usedAssisted = true ∧
    extractLocation (lowerL "snow".data) = "Nashville" :=
  ⟨(claim2_thm tmW "snow" .exn).1 (by decide),
   (claim2_thm tmCalc "rain in paris" .exn).2.1 (by decide),
   (claim2_thm tmCalc "snow" .exn).2.2 (by decide)⟩

/-- C3, counterexample: on empty or whitespace-only input the keyword
resolver does not return an outcome — `text.split()[0]` raises an
uncaught `IndexError`. -/
theorem claim3_cex :
    parse_natural_language "" tmCalc = .error .indexError ∧
    parse_natural_language "   " tmCalc = .error .indexError := by
  decide

/-- C3 as amended: for every input whose whitespace-split is nonempty and
every catalog whose tools list each required parameter in their
properties, the keyword resolver returns an outcome rather than raising;
when no table phrase matches it treats the first whitespace-delimited
token as a literal tool name, accepted only if it exists in the catalog,
and returns Unresolved when no tool is identified. -/
theorem claim3_thm (input : String) (tm : ToolMap)
    (hne : splitWs (lowerL input.data) ≠ [])
    (hwf : ∀ p ∈ tm, ∀ k ∈ p.2.required,
      (p.2.properties.find? (fun q => q.1 == k)).isSome = true) :
    (∃ o, parse_natural_language input tm = .ok o) ∧
    (findKeywordTool (lowerL input.data) tm = none →
      ∀ w ws, splitWs (lowerL input.data) = w :: ws →
        ((hasTool tm (String.mk w) = false → parse_natural_language input tm = .ok none) ∧
         (hasTool tm (String.mk w) = true →
           foundToolOf (lowerL input.data) tm = .ok (some (String.mk w))))) := by
  refine ⟨parse_total hne hwf, fun hfk w ws hs => ⟨fun hno => ?_, fun hyes => ?_⟩⟩
  · have hft : foundToolOf (lowerL input.data) tm = .ok none := by
      unfold foundToolOf
      rw [hfk]
      unfold firstWordTool
      rw [hs]
      show Except.ok (if hasTool tm (String.mk w) = true
        then some (String.mk w) else none) = Except.ok none
      rw [hno]
      rfl
    unfold parse_natural_language
    rw [hft]
  · unfold foundToolOf
    rw [hfk]
    unfold firstWordTool
    rw [hs]
    show Except.ok (if hasTool tm (String.mk w) = true
      then some (String.mk w) else none) = Except.ok (some (String.mk w))
    rw [hyes]
    rfl

/-- C3 witness: the amended theorem at a concrete unmatched input. -/
theorem claim3_wit :
    (∃ o, parse_natural_language "zzz" tmCalc = .ok o) ∧
    (findKeywordTool (lowerL "zzz".data) tmCalc = none →
      ∀ w ws, splitWs (lowerL "zzz".data) = w :: ws →
        ((hasTool tmCalc (String.mk w) = false →
            parse_natural_language "zzz" tmCalc = .ok none) ∧
         (hasTool tmCalc (String.mk w) = true →
           foundToolOf (lowerL "zzz".data) tmCalc = .ok (some (String.mk w))))) :=
  claim3_thm "zzz" tmCalc (by decide) (by decide)

/-- C4: when no intercept fires, the assisted resolver is always consulted,
the keyword resolver is consulted exactly when the dispatcher's falsy
test rejects the assisted result, and when both steps come back
unresolved the turn ends with the terminal not-understood outcome rather
than an exception. -/
theorem claim4_thm (tm : ToolMap) (input : String) (r : QwenResult)
    (hni : weatherCond input tm = false) :
    (runTurn tm input r).usedAssisted = true ∧
    (runTurn tm input r).usedKeyword = assistedRejected (ask_qwen_for_tool tm r) ∧
    (assistedRejected (ask_qwen_for_tool tm r) = true →
      parse_natural_language input tm = .ok none →
      (runTurn tm input r).outcome = .ok .notUnderstood) := by
  cases ha : ask_qwen_for_tool tm r with
  | none =>
      rw [runTurn_noWeather_none hni ha]
      refine ⟨rfl, rfl, fun _ hp => ?_⟩
      show kwOutcome input tm = .ok .notUnderstood
      unfold kwOutcome
      rw [hp]
  | some pair =>
      obtain ⟨t', a'⟩ := pair
      rw [runTurn_noWeather_some hni ha]
      by_cases hrej : (t' == "" || a'.isNull) = true
      · rw [if_pos hrej]
        refine ⟨rfl, ?_, fun _ hp => ?_⟩
        · exact hrej.symm
        · show kwOutcome input tm = .ok .notUnderstood
          unfold kwOutcome
          rw [hp]
      · rw [if_neg hrej]
        refine ⟨rfl, ?_, fun hcontra _ => ?_⟩
        · exact (Bool.eq_false_iff.mpr hrej).symm
        · exact absurd hcontra hrej

/-- C4 witness: with no weather trigger, a failed assisted call falls back
to the keyword resolver, and an unresolvable input ends not-understood. -/
theorem claim4_wit :
    (runTurn tmCalc "qqq" .exn).usedAssisted = true ∧
    (runTurn tmCalc "qqq" .exn).usedKeyword = assistedRejected (ask_qwen_for_tool tmCalc .exn) ∧
    (assistedRejected (ask_qwen_for_tool tmCalc .exn) = true →
      parse_natural_language "qqq" tmCalc = .ok none →
      (runTurn tmCalc "qqq" .exn).outcome = .ok .notUnderstood) :=
  claim4_thm tmCalc "qqq" .exn (by decide)

/-- C5: the assisted resolver returns the unresolved pair rather than
raising for each failure mode — an exception inside the request block
(network failure or timeout), empty reply content, content that fails
JSON decoding, a payload without a `tool` field, and a payload whose
`tool` names no catalog tool. -/
theorem claim5_thm (tm : ToolMap) (content : String) (d : Option JVal)
    (fields : List (String × JVal)) (t : String) :
    ask_qwen_for_tool tm .exn = none ∧
    (stripL content.data = [] → ask_qwen_for_tool tm (.response content d) = none) ∧
    ask_qwen_for_tool tm (.response content none) = none ∧
    (fields.find? (fun p => p.1 == "tool") = none →
      ask_qwen_for_tool tm (.response content (some (.jobj fields))) = none) ∧
    (fields.find? (fun p => p.1 == "tool") = some ("tool", .jstr t) →
      hasTool tm t = false →
      ask_qwen_for_tool tm (.response content (some (.jobj fields))) = none) := by
  refine ⟨rfl, fun hs => ?_, ?_, fun hf => ?_, fun hf hht => ?_⟩
  · show (if stripL content.data = [] then none else askDecoded tm d) = none
    rw [if_pos hs]
  · show (if stripL content.data = [] then none else askDecoded tm none) = none
    split
    next => rfl
    next => rfl
  · show (if stripL content.data = [] then none
      else askFields tm fields) = none
    split
    next => rfl
    next =>
      unfold askFields
      rw [hf]
  · show (if stripL content.data = [] then none
      else askFields tm fields) = none
    split
    next => rfl
    next =>
      unfold askFields
      rw [hf]
      show (if hasTool tm t = true
        then some (t, (jget fields "args").getD (.jobj [])) else none) = none
      rw [hht]
      rfl

/-- C5 witness: each failure mode at a concrete catalog and reply. -/
theorem claim5_wit :
    ask_qwen_for_tool tmCalc .exn = none ∧
    ask_qwen_for_tool tmCalc (.response "  " (some (.jobj [("tool", .jstr "add")]))) = none ∧
    ask_qwen_for_tool tmCalc (.response "x" none) = none ∧
    ask_qwen_for_tool tmCalc (.response "x" (some (.jobj [("args", .jobj [])]))) = none ∧
    ask_qwen_for_tool tmCalc (.response "x" (some (.jobj [("tool", .jstr "nosuch")]))) = none :=
  ⟨(claim5_thm tmCalc "x" none [] "x").1,
   (claim5_thm tmCalc "  " (some (.jobj [("tool", .jstr "add")])) [] "x").2.1 (by decide),
   (claim5_thm tmCalc "x" none [] "x").2.2.1,
   (claim5_thm tmCalc "x" none [("args", .jobj [])] "x").2.2.2.1 (by rfl),
   (claim5_thm tmCalc "x" none [("tool", .jstr "nosuch")] "nosuch").2.2.2.2 (by rfl) (by decide)⟩

/-- C6, counterexample: in `add minus over` the phrases `minus` (table
entry 3, tool `subtract`) and `over` (table entry 7, tool `divide`) both
occur and both tools are in the catalog, so the claim picks the earlier
of the two, `subtract`; the resolver instead returns `add`, because the
even earlier entry 0 also matches. -/
theorem claim6_cex :
    subIn ("minus").data (lowerL "add minus over".data) = true ∧
    subIn ("over").data (lowerL "add minus over".data) = true ∧
    keywords[3]? = some ("minus", "subtract") ∧
    keywords[7]? = some ("over", "divide") ∧
    hasTool tmTrio "subtract" = true ∧
    hasTool tmTrio "divide" = true ∧
    parse_natural_language "add minus over" tmTrio = .ok (some ("add", [])) ∧
    ("add" : String) ≠ "subtract" ∧ ("add" : String) ≠ "divide" := by
  decide

/-- C6 as amended: the keyword scan is first-match by table order — if any
table entry matches (phrase occurs in the text and its tool is in the
catalog), the selected tool is that of a matching entry no later in the
table; in particular a later matching entry never outranks an earlier
one, though an even earlier matching entry may supersede both. -/
theorem claim6_thm (text : List Char) (tm : ToolMap) (i : Nat)
    (hi : i < keywords.length)
    (hm : kwMatches text tm (keywords.get ⟨i, hi⟩) = true) :
    ∃ k, ∃ hk : k < keywords.length, k ≤ i ∧
      kwMatches text tm (keywords.get ⟨k, hk⟩) = true ∧
      findKeywordTool text tm = some (keywords.get ⟨k, hk⟩).2 := by
  obtain ⟨k, hk, hki, hpk, hfind⟩ := list_find?_first (kwMatches text tm) keywords i hi hm
  refine ⟨k, hk, hki, hpk, ?_⟩
  unfold findKeywordTool
  rw [hfind]
  rfl

/-- C6 witness: the amended theorem at the matching entry for `minus`. -/
theorem claim6_wit :
    ∃ k, ∃ hk : k < keywords.length, k ≤ 3 ∧
      kwMatches (lowerL "minus 1".data) tmTrio (keywords.get ⟨k, hk⟩) = true ∧
      findKeywordTool (lowerL "minus 1".data) tmTrio =
        some (keywords.get ⟨k, hk⟩).2 :=
  claim6_thm (lowerL "minus 1".data) tmTrio 3 (by decide) (by decide)

/-- C7: when the matched tool requires more parameters than there are
extracted numerals the keyword resolver returns Unresolved, and every
Resolved outcome's args mapping binds exactly the tool's required
parameter names, in order — never a partially filled mapping. -/
theorem claim7_thm :
    (∀ input tm t tool,
      foundToolOf (lowerL input.data) tm = .ok (some t) →
      lookupTool tm t = some tool →
      (findallNum (lowerL input.data)).length < tool.required.length →
      parse_natural_language input tm = .ok none) ∧
    (∀ input tm t args, parse_natural_language input tm = .ok (some (t, args)) →
      ∃ tool, lookupTool tm t = some tool ∧ args.map Prod.fst = tool.required) := by
  constructor
  · intro input tm t tool hf hl hlen
    unfold parse_natural_language
    rw [hf]
    show parseWithTool tm (lowerL input.data) t = .ok none
    unfold parseWithTool
    rw [hl]
    show parseWithSchema (lowerL input.data) t tool = .ok none
    unfold parseWithSchema
    have hnotempty : ¬ tool.required.isEmpty = true := by
      intro hemp
      have hnil : tool.required = [] := by
        cases hr : tool.required with
        | nil => rfl
        | cons a as => rw [hr] at hemp; simp [List.isEmpty] at hemp
      rw [hnil] at hlen
      simp at hlen
    rw [if_neg hnotempty, if_pos hlen]
  · exact fun input tm t args h => parse_required_keys h

/-- C7 witness: `add 5` has one numeral for two required parameters and is
Unresolved; `add 5 and 3` resolves with exactly the required keys. -/
theorem claim7_wit :
    parse_natural_language "add 5" tmCalc = .ok none ∧
    (∃ tool, lookupTool tmCalc "add" = some tool ∧
      ([("a", Value.int 5), ("b", Value.int 3)] : Args).map Prod.fst = tool.required) :=
  ⟨claim7_thm.1 "add 5" tmCalc "add" ⟨[("a", "integer"), ("b", "integer")], ["a", "b"]⟩
      (by decide) (by decide) (by decide),
   claim7_thm.2 "add 5 and 3" tmCalc "add" [("a", Value.int 5), ("b", Value.int 3)]
      (by decide)⟩

/-- C8: whenever the keyword resolver identifies a tool (by phrase or by
first word) whose required list is empty, it returns Resolved with that
tool and an empty args mapping, regardless of any numerals in the text. -/
theorem claim8_thm (input : String) (tm : ToolMap) (t : String) (tool : ToolSchema)
    (hf : foundToolOf (lowerL input.data) tm = .ok (some t))
    (hl : lookupTool tm t = some tool)
    (hreq : tool.required = []) :
    parse_natural_language input tm = .ok (some (t, [])) := by
  unfold parse_natural_language
  rw [hf]
  show parseWithTool tm (lowerL input.data) t = .ok (some (t, []))
  unfold parseWithTool
  rw [hl]
  show parseWithSchema (lowerL input.data) t tool = .ok (some (t, []))
  unfold parseWithSchema
  rw [if_pos (by rw [hreq]; rfl)]

/-- C8 witness: `recent` maps to the no-required-parameter history tool. -/
theorem claim8_wit :
    parse_natural_language "recent" tmCalc =
      .ok (some ("get_recent_calculations", [])) :=
  claim8_thm "recent" tmCalc "get_recent_calculations" ⟨[("n", "integer")], []⟩
    (by decide) (by decide) rfl

/-- C9: the coercion step converts each bound numeral per the declared
type — `integer` parses the decimal and truncates toward zero, `number`
keeps the parsed decimal, any other type passes the substring through as
text; a parse failure is a `ValueError`; truncation is toward zero (not
floor); and inside the resolver the i-th required parameter is bound to
the coercion of the i-th extracted numeral at its declared type. -/
theorem claim9_thm :
    (∀ v q, pyFloat v = some q →
      coerceVal "integer" v = .ok (.int (truncQ q)) ∧
      coerceVal "number" v = .ok (.num q)) ∧
    (∀ ty v, ty ≠ "integer" → ty ≠ "number" →
      coerceVal ty v = .ok (.str (String.mk v))) ∧
    (∀ v, pyFloat v = none →
      coerceVal "integer" v = .error .valueError ∧
      coerceVal "number" v = .error .valueError) ∧
    (truncQ (mkRat (-5) 2) = -2 ∧ truncQ (mkRat 5 2) = 2) ∧
    (∀ input tm t args tool, parse_natural_language input tm = .ok (some (t, args)) →
      lookupTool tm t = some tool → tool.required ≠ [] →
      buildArgs tool.properties tool.required (findallNum (lowerL input.data)) = .ok args) ∧
    (∀ props req ns args, buildArgs props req ns = .ok args →
      ∀ i, ∀ hi : i < req.length, ∀ hn : i < ns.length, ∀ ha : i < args.length,
        ∃ pr, props.find? (fun p => p.1 == req.get ⟨i, hi⟩) = some pr ∧
          coerceVal pr.2 (ns.get ⟨i, hn⟩) = .ok ((args.get ⟨i, ha⟩).2) ∧
          (args.get ⟨i, ha⟩).1 = req.get ⟨i, hi⟩) := by
  refine ⟨fun v q hq => ⟨?_, ?_⟩, fun ty v h1 h2 => ?_, fun v hq => ⟨?_, ?_⟩,
    by decide, fun input tm t args tool hp hl hreq => ?_,
    fun props req ns args h => buildArgs_get h⟩
  · unfold coerceVal
    rw [if_pos rfl, hq]
  · unfold coerceVal
    rw [if_neg (by decide), if_pos rfl, hq]
  · unfold coerceVal
    rw [if_neg h1, if_neg h2]
  · unfold coerceVal
    rw [if_pos rfl, hq]
  · unfold coerceVal
    rw [if_neg (by decide), if_pos rfl, hq]
  · obtain ⟨_, tool', hl', hcase⟩ := parse_some_inv hp
    rw [hl'] at hl
    injection hl with hl
    subst hl
    cases hcase with
    | inl he => exact absurd he.1 hreq
    | inr hb => exact hb

/-- C9 witness: concrete coercions of `-2.5` and a concrete positional
binding produced by the resolver on `add 5 and 3`. -/
theorem claim9_wit :
    coerceVal "integer" ("-2.5").data = .ok (.int (truncQ (mkRat (-5) 2))) ∧
    coerceVal "number" ("-2.5").data = .ok (.num (mkRat (-5) 2)) ∧
    coerceVal "boolean" ("7").data = .ok (.str (String.mk ("7").data)) ∧
    coerceVal "integer" ("x").data = .error .valueError ∧
    buildArgs [("a", "integer"), ("b", "integer")] ["a", "b"]
        (findallNum (lowerL "add 5 and 3".data)) =
      .ok [("a", Value.int 5), ("b", Value.int 3)] :=
  ⟨(claim9_thm.1 ("-2.5").data (mkRat (-5) 2) (by decide)).1,
   (claim9_thm.1 ("-2.5").data (mkRat (-5) 2) (by decide)).2,
   claim9_thm.2.1 "boolean" ("7").data (by decide) (by decide),
   (claim9_thm.2.2.1 ("x").data (by decide)).1,
   claim9_thm.2.2.2.2.1 "add 5 and 3" tmCalc "add"
     [("a", Value.int 5), ("b", Value.int 3)]
     ⟨[("a", "integer"), ("b", "integer")], ["a", "b"]⟩
     (by decide) (by decide) (by decide)⟩

/-- C10: if the matched tool's first required parameter name is absent from
its properties mapping (and enough numerals are present to reach the
coercion loop), the resolver raises an uncaught `KeyError` — the handler
catches only `IndexError` and `ValueError`; and under the precondition
that every required name appears in properties (plus a non-whitespace
input) the resolver is total. -/
theorem claim10_thm :
    (∀ input tm t props k ks,
      foundToolOf (lowerL input.data) tm = .ok (some t) →
      lookupTool tm t = some ⟨props, k :: ks⟩ →
      props.find? (fun p => p.1 == k) = none →
      (k :: ks).length ≤ (findallNum (lowerL input.data)).length →
      parse_natural_language input tm = .error .keyError) ∧
    (∀ input tm, splitWs (lowerL input.data) ≠ [] →
      (∀ p ∈ tm, ∀ key ∈ p.2.required,
        (p.2.properties.find? (fun q => q.1 == key)).isSome = true) →
      ∃ o, parse_natural_language input tm = .ok o) := by
  constructor
  · intro input tm t props k ks hf hl hmiss hlen
    unfold parse_natural_language
    rw [hf]
    show parseWithTool tm (lowerL input.data) t = .error .keyError
    unfold parseWithTool
    rw [hl]
    show parseWithSchema (lowerL input.data) t ⟨props, k :: ks⟩ = .error .keyError
    unfold parseWithSchema
    rw [if_neg (by simp)]
    rw [if_neg (Nat.not_lt.mpr hlen)]
    have hb : buildArgs props (k :: ks) (findallNum (lowerL input.data)) =
        .error .keyError := by
      unfold buildArgs
      rw [hmiss]
    rw [hb]
  · intro input tm hne hwf
    exact parse_total hne hwf

/-- C10 witness: the catalog tool `badd` requires `a` but declares no
properties, so `badd 5` raises `KeyError`; a well-formed catalog with a
non-whitespace input returns an outcome. -/
theorem claim10_wit :
    parse_natural_language "badd 5" tmBad = .error .keyError ∧
    (∃ o, parse_natural_language "qq 1" tmCalc = .ok o) :=
  ⟨claim10_thm.1 "badd 5" tmBad "badd" [] "a" [] (by decide) (by decide) rfl (by decide),
   claim10_thm.2 "qq 1" tmCalc (by decide) (by decide)⟩
